import Mathlib

/-!
Shallow embedding of the issue9/jsonrpc JSON-RPC 2.0 runtime.

The definitions below are translated from the Go source:
  * `jsonrpc.go`   — `ID`, `Error`, `body`, `NewError*`, the protocol codes;
  * `handler.go`   — `handler.call` (reflection is rendered as a typed record
                      of the decode / invoke / encode capabilities);
  * `server.go` (revision with matchers) — `Server.Register`, `Exists`,
                      `read`, `response`, `writeError`, `request`;
  * `conn.go`      — `Conn.Send` (event trace) and `Conn.serve`;
  * `stream.go` (header-framed revision) — `streamTransport.Read` header
                      parsing.

JSON is modelled at the value level (`Json`); Go's `json.RawMessage`
fragments are carried as `Json` values, and `encoding/json` struct
marshalling with `omitempty` tags is modelled field by field.
-/

/-- JSON values. Numbers are restricted to integers, which covers every
value the runtime itself produces for the `id` field (Go `int64`). -/
inductive Json where
  | null : Json
  | bool : Bool → Json
  | num : Int → Json
  | str : String → Json
  | arr : List Json → Json
  | obj : List (String × Json) → Json
deriving Repr

/-- Protocol version constant (`Version` in `jsonrpc.go`). -/
def Version : String := "2.0"

/-- `CodeParseError` in `jsonrpc.go`. -/
def CodeParseError : Int := -32700
/-- `CodeInvalidRequest` in `jsonrpc.go`. -/
def CodeInvalidRequest : Int := -32600
/-- `CodeMethodNotFound` in `jsonrpc.go`. -/
def CodeMethodNotFound : Int := -32601
/-- `CodeInvalidParams` in `jsonrpc.go`. -/
def CodeInvalidParams : Int := -32602
/-- `CodeInternalError` in `jsonrpc.go`. -/
def CodeInternalError : Int := -32603

/-- The `ID` struct of `jsonrpc.go`: either a signed 64-bit number or a
string, tagged by `isNumber`.  Go's zero values are `0`, `""`, `false`. -/
structure ID where
  number : Int
  alpha : String
  isNumber : Bool
deriving Repr, DecidableEq

/-- Go zero value of `ID` (fresh allocation before JSON decoding). -/
def zeroID : ID := ⟨0, "", false⟩

/-- `ID.Equal` in `jsonrpc.go`: same variant tag, then compare the value
of that variant only. -/
def ID.Equal (id val : ID) : Bool :=
  if id.isNumber != val.isNumber then false
  else if id.isNumber then id.number == val.number
  else id.alpha == val.alpha

/-- `ID.MarshalJSON`: a bare number for the number variant, a bare JSON
string otherwise. -/
def ID.marshalJSON (id : ID) : Json :=
  if id.isNumber then Json.num id.number else Json.str id.alpha

/-- Whether an integer fits Go's `int64`. -/
def int64Range (n : Int) : Prop := -(2 ^ 63) ≤ n ∧ n < 2 ^ 63

instance (n : Int) : Decidable (int64Range n) := by
  unfold int64Range; infer_instance

/-- Go `json.Unmarshal(data, &n)` for `n : int64`: succeeds on an integer
JSON number in range; a JSON `null` succeeds and leaves the target
unchanged; any other value is a type error. -/
def unmarshalInt64 (data : Json) (cur : Int) : Except String Int :=
  match data with
  | Json.num n => if int64Range n then Except.ok n else Except.error "number out of int64 range"
  | Json.null => Except.ok cur
  | _ => Except.error "cannot unmarshal into int64"

/-- Go `json.Unmarshal(data, &s)` for `s : string`: succeeds on a JSON
string; `null` leaves the target unchanged; anything else is a type
error. -/
def unmarshalString (data : Json) (cur : String) : Except String String :=
  match data with
  | Json.str s => Except.ok s
  | Json.null => Except.ok cur
  | _ => Except.error "cannot unmarshal into string"

/-- `ID.UnmarshalJSON`: try the number first and set `isNumber := true` on
success; otherwise clear `isNumber` and decode the string; `none` models
the error return. -/
def ID.unmarshalJSON (id : ID) (data : Json) : Option ID :=
  match unmarshalInt64 data id.number with
  | Except.ok n => some { id with number := n, isNumber := true }
  | Except.error _ =>
    match unmarshalString data id.alpha with
    | Except.ok s => some { id with alpha := s, isNumber := false }
    | Except.error _ => none

/-- `ID.String`: decimal rendering of the number variant, the raw string
otherwise (`strconv.FormatInt(id.number, 10)` matches `toString` on
`Int`). -/
def ID.string (id : ID) : String :=
  if id.isNumber then toString id.number else id.alpha

/-- The `Error` struct of `jsonrpc.go` (`data` is `omitempty`). -/
structure Error where
  code : Int
  message : String
  data : Option Json
deriving Repr

/-- A Go `error` value as the runtime sees it: either a plain error
(identified by its message) or the structured `*Error` kind. -/
inductive GoError where
  | plain : String → GoError
  | structured : Error → GoError
deriving Repr

/-- `NewErrorWithData` in `jsonrpc.go`. -/
def NewErrorWithData (code : Int) (msg : String) (data : Option Json) : Error :=
  ⟨code, msg, data⟩

/-- `NewError` in `jsonrpc.go`. -/
def NewError (code : Int) (msg : String) : Error := NewErrorWithData code msg none

/-- `NewErrorWithError` in `jsonrpc.go`: an `*Error` passes through
verbatim, any other error is wrapped with the given code and its own
message. -/
def NewErrorWithError (code : Int) (err : GoError) : Error :=
  match err with
  | GoError.structured e => e
  | GoError.plain msg => NewError code msg

/-- The message of a Go error (`err.Error()`); for the structured kind
this is the `Message` field. -/
def GoError.message : GoError → String
  | GoError.plain m => m
  | GoError.structured e => e.message

/-- The `body` struct of `jsonrpc.go`: the single envelope used for both
requests and responses.  `Option` renders the nillable pointer fields. -/
structure Body where
  version : String
  id : Option ID
  method : String
  params : Option Json
  result : Option Json
  error : Option Error
deriving Repr

/-- `body.isRequest`. -/
def Body.isRequest (b : Body) : Bool := b.method != "" || b.params.isSome

/-- `body.isEmptyRequest`. -/
def Body.isEmptyRequest (b : Body) : Bool :=
  b.version == "" && b.id.isNone && b.method == "" && b.params.isNone

/-- `encoding/json` marshalling of `Error` (`code`, `message`, and `data`
under `omitempty`). -/
def Error.marshalJSON (e : Error) : Json :=
  Json.obj ([("code", Json.num e.code), ("message", Json.str e.message)] ++
    (match e.data with
     | none => []
     | some d => [("data", d)]))

/-- `encoding/json` marshalling of `body`: `jsonrpc` is always present,
every other field carries `omitempty`, so a nil `*ID` is omitted from
the wire object (not rendered as `null`). -/
def Body.marshalJSON (b : Body) : Json :=
  Json.obj ([("jsonrpc", Json.str b.version)] ++
    (match b.id with
     | none => []
     | some i => [("id", i.marshalJSON)]) ++
    (if b.method == "" then [] else [("method", Json.str b.method)]) ++
    (match b.params with
     | none => []
     | some p => [("params", p)]) ++
    (match b.result with
     | none => []
     | some r => [("result", r)]) ++
    (match b.error with
     | none => []
     | some e => [("error", e.marshalJSON)]))

/-- The keys of a marshalled JSON object (for stating which fields appear
on the wire). -/
def Json.objKeys : Json → List String
  | Json.obj fields => fields.map Prod.fst
  | _ => []

/-- Field lookup in a marshalled JSON object. -/
def Json.objGet (j : Json) (k : String) : Option Json :=
  match j with
  | Json.obj fields => (fields.find? (fun p => p.fst == k)).map Prod.snd
  | _ => none

/-- The reflective `handler` of `handler.go`, rendered as a typed record:
`zeroIn`/`zeroOut` are the zero values `reflect.New` allocates, `decodeIn`
is `json.Unmarshal` into the parameter value, `f` is the user function
`(notify, *P, *R) -> error` (returning the possibly-updated output and an
optional error), and `encodeOut` is `json.Marshal` of the output.  The
signature checks of `newHandler` are enforced by the types themselves. -/
structure Handler (P R : Type) where
  zeroIn : P
  zeroOut : R
  decodeIn : Json → P → Except String P
  f : Bool → P → R → R × Option GoError
  encodeOut : R → Except String Json

/-- A handler with its parameter and result shapes erased, as stored in
the server's method table (`interface{}` plus reflection in Go). -/
structure AnyHandler where
  P : Type
  R : Type
  h : Handler P R

/-- The parameter-decoding step of `handler.call`: a fresh zero value,
then `json.Unmarshal` when the request carries params; a decode failure
is wrapped by `NewErrorWithError(CodeParseError, err)`. -/
def Handler.decodeParams {P R : Type} (h : Handler P R) (req : Body) : Except Error P :=
  match req.params with
  | none => Except.ok h.zeroIn
  | some p =>
    match h.decodeIn p h.zeroIn with
    | Except.ok v => Except.ok v
    | Except.error msg => Except.error (NewErrorWithError CodeParseError (GoError.plain msg))

/-- `handler.call` in `handler.go`: decode params, invoke the user
function, and for non-notifications encode the output into a success
envelope carrying the request's ID.  `Except.error` is the non-nil error
return (always a structured `*Error`); `Except.ok none` is the silent
`(nil, nil)` return for notifications. -/
def Handler.call {P R : Type} (h : Handler P R) (req : Body) : Except Error (Option Body) :=
  match h.decodeParams req with
  | Except.error e => Except.error e
  | Except.ok inVal =>
    let notify := req.id.isNone
    match h.f notify inVal h.zeroOut with
    | (_, some e) => Except.error (NewErrorWithError CodeInternalError e)
    | (outVal, none) =>
      if notify then Except.ok none
      else
        match h.encodeOut outVal with
        | Except.error msg => Except.error (NewErrorWithError CodeParseError (GoError.plain msg))
        | Except.ok data =>
          Except.ok (some { version := Version, id := req.id, method := "",
                            params := none, result := some data, error := none })

/-- `AnyHandler.call` unpacks the erased shapes. -/
def AnyHandler.call (a : AnyHandler) (req : Body) : Except Error (Option Body) :=
  a.h.call req

/-- A matcher entry (`matcher` struct in `server.go`). -/
structure Matcher where
  pred : String → Bool
  h : AnyHandler

/-- The `Server` of `server.go` (revision with matchers): the exact-name
table (`sync.Map`, modelled as an association list), the ordered matcher
list, the optional before-hook, the optional error handler for inbound
response errors, and the injected unique-ID source (a constant next
value here, since only one mint occurs per modelled operation). -/
structure Server where
  unique : String
  servers : List (String × AnyHandler)
  matchers : List Matcher
  before : Option (String → Option GoError)
  errHandler : Option (Error → Unit)

/-- `sync.Map.Load` over the association-list model. -/
def loadAssoc (l : List (String × AnyHandler)) (k : String) : Option AnyHandler :=
  (l.find? (fun p => p.fst == k)).map Prod.snd

/-- `sync.Map.Store` over the association-list model: replace an existing
entry, otherwise append. -/
def storeAssoc (l : List (String × AnyHandler)) (k : String) (v : AnyHandler) :
    List (String × AnyHandler) :=
  if l.any (fun p => p.fst == k) then
    l.map (fun p => if p.fst == k then (k, v) else p)
  else l ++ [(k, v)]

/-- `Server.Exists`. -/
def Server.Exists (s : Server) (method : String) : Bool :=
  (loadAssoc s.servers method).isSome

/-- `Server.Register`: refuse a duplicate name, otherwise store the
handler; the Bool is the success report. -/
def Server.Register (s : Server) (method : String) (a : AnyHandler) : Server × Bool :=
  if s.Exists method then (s, false)
  else ({ s with servers := storeAssoc s.servers method a }, true)

/-- `Server.RegisterMatcher`: append to the matcher list. -/
def Server.RegisterMatcher (s : Server) (m : Matcher) : Server :=
  { s with matchers := s.matchers ++ [m] }

/-- `Server.id`: mint a fresh ID from the unique source
(`&ID{alpha: s.unique()}`, so the string variant with zero number). -/
def Server.mintID (s : Server) : ID := { zeroID with alpha := s.unique }

/-- The matcher loop of `Server.response`: first entry whose predicate
accepts the method name, in insertion order. -/
def findMatcher : List Matcher → String → Option AnyHandler
  | [], _ => none
  | m :: rest, name => if m.pred name then some m.h else findMatcher rest name

/-- Handler resolution as performed inline in `Server.response`: the
exact-name table, then the matchers. -/
def Server.lookup (s : Server) (method : String) : Option AnyHandler :=
  match loadAssoc s.servers method with
  | some a => some a
  | none => findMatcher s.matchers method

/-- The envelope built by `Server.writeError`: version, the given ID, and
either the structured error verbatim or a fresh error wrapping a plain
one under the given code. -/
def writeErrorBody (id : Option ID) (code : Int) (err : GoError) (data : Option Json) : Body :=
  { version := Version, id := id, method := "", params := none, result := none,
    error := some (match err with
      | GoError.structured e2 => e2
      | GoError.plain msg => NewErrorWithData code msg data) }

/-- `Server.response` in `server.go`, with the transport rendered as the
list of envelopes written (in order).  The before-hook may veto; the
handler is resolved per `Server.lookup`; a call error is passed to
`writeError` with outer code `CodeParseError` (the structured error
always wins there); a nil response (notification) writes nothing. -/
def Server.response (s : Server) (req : Body) : List Body :=
  let afterBefore : List Body :=
    match s.lookup req.method with
    | none =>
      [writeErrorBody req.id CodeMethodNotFound
        (GoError.plain ("未找到对应的服务 " ++ req.method)) none]
    | some a =>
      match a.call req with
      | Except.error e => [writeErrorBody req.id CodeParseError (GoError.structured e) none]
      | Except.ok none => []
      | Except.ok (some resp) => [resp]
  match s.before with
  | none => afterBefore
  | some bf =>
    match bf req.method with
    | some err => [writeErrorBody req.id CodeMethodNotFound err none]
    | none => afterBefore

/-- The outcome of one `Transport.Read` call as `Server.read` sees it. -/
inductive TransportRead where
  | ok : Body → TransportRead
  | deadline : TransportRead
  | errPlain : String → TransportRead
  | errStructured : Error → TransportRead

/-- `Server.read` in `server.go`: a deadline-exceeded read is absorbed; a
read error is answered with a `CodeParseError` envelope carrying a nil
ID; an empty request is answered with `CodeInvalidRequest`; otherwise
the envelope is handed back for dispatch.  The result is the envelope to
dispatch (if any) together with the envelopes written. -/
def Server.read (r : TransportRead) : Option Body × List Body :=
  match r with
  | TransportRead.deadline => (none, [])
  | TransportRead.errPlain m =>
    (none, [writeErrorBody none CodeParseError (GoError.plain m) none])
  | TransportRead.errStructured e =>
    (none, [writeErrorBody none CodeParseError (GoError.structured e) none])
  | TransportRead.ok b =>
    if b.isEmptyRequest then
      (none, [writeErrorBody none CodeInvalidRequest (GoError.plain "无效的请求内容") none])
    else (some b, [])

/-- `Server.request` in `server.go`: marshal the params (skipped when
nil), build the envelope, mint an ID unless this is a notification.
`marshalFails` stands for a `json.Marshal(in)` failure (possible only
when params are present); the write itself is accounted for by the
caller's event trace. -/
def Server.requestBody (s : Server) (notify : Bool) (method : String)
    (params : Option Json) : Body :=
  { version := Version, id := if notify then none else some s.mintID,
    method := method, params := params, result := none, error := none }

/-- One observable step of `Conn.Send`: a transport write or a callback
registration in the callback table. -/
inductive SendEvent where
  | write : Body → SendEvent
  | store : String → SendEvent
deriving Repr

/-- `Conn.Send` in `conn.go`, rendered as its event trace: `request`
marshals the params and writes the envelope to the transport, and only
after `request` returns does `Send` store the callback under
`req.ID.String()`.  `marshalFails` / `writeFails` select the failure
branches of `json.Marshal` and `Transport.Write`; the Bool reports
whether `Send` returned nil. -/
def Conn.sendEvents (s : Server) (method : String) (params : Option Json)
    (marshalFails writeFails : Bool) : List SendEvent × Bool :=
  if params.isSome && marshalFails then ([], false)
  else if writeFails then ([SendEvent.write (s.requestBody false method params)], false)
  else ([SendEvent.write (s.requestBody false method params),
         SendEvent.store (s.mintID).string], true)

/-- Whether a trace registers the callback strictly before the envelope
write — the ordering the claim asserts for `Conn.Send`. -/
def storeBeforeWrite (tr : List SendEvent) : Prop :=
  ∃ i j : Nat, i < j ∧
    (∃ k, tr.get? i = some (SendEvent.store k)) ∧
    (∃ b, tr.get? j = some (SendEvent.write b))

/-- The outcome of `Conn.serve` on one inbound envelope.  `panicNilID`
marks the nil-pointer dereference of `body.ID.String()` when the
response branch runs with a nil ID. -/
inductive ServeOutcome where
  | requestDispatched : List Body → ServeOutcome
  | errorHandled : ServeOutcome
  | callbackRun : String → ServeOutcome
  | callbackMissing : String → ServeOutcome
  | panicNilID : ServeOutcome

/-- `Conn.serve` in `conn.go`: a request envelope goes to
`Server.response`; otherwise an embedded error goes to the error
handler; otherwise the callback table is consulted under
`body.ID.String()` — which dereferences the ID pointer, so a nil ID
faults. -/
def Conn.serve (s : Server) (callbacks : List String) (b : Body) : ServeOutcome :=
  if b.isRequest then ServeOutcome.requestDispatched (s.response b)
  else if b.error.isSome then ServeOutcome.errorHandled
  else
    match b.id with
    | none => ServeOutcome.panicNilID
    | some i =>
      if callbacks.contains i.string then ServeOutcome.callbackRun i.string
      else ServeOutcome.callbackMissing i.string

/-!  The header-framed `streamTransport.Read` of `stream.go`.  The input
byte stream is modelled as the sequence of lines `bufio.ReadString('\n')
` yields (each line still carrying its terminator), followed by an
abstract body-decoding step. -/

/-- Errors of the framed read path. -/
inductive StreamError where
  | invalidHeader : StreamError
  | missContentLength : StreamError
  | parseIntError : StreamError
  | invalidContentType : StreamError
  | readLineError : StreamError
  | bodyError : StreamError
deriving Repr, DecidableEq

/-- Whether a character is a valid MIME header token byte
(`net/textproto`): letters, digits, and a small punctuation set. -/
def isTokenChar (c : Char) : Bool :=
  c.isAlpha || c.isDigit ||
  c == '!' || c == '#' || c == '$' || c == '%' || c == '&' || c == '\x27' ||
  c == '*' || c == '+' || c == '-' || c == '.' || c == '^' || c == '_' ||
  c == '\x60' || c == '|' || c == '~'

/-- Canonicalisation step of `http.CanonicalHeaderKey`: uppercase after a
start or hyphen, lowercase otherwise. -/
def canonicalChars : Bool → List Char → List Char
  | _, [] => []
  | upper, c :: rest =>
    (if upper then c.toUpper else c.toLower) :: canonicalChars (c == '-') rest

/-- `http.CanonicalHeaderKey`: canonical case when every byte is a valid
token byte, otherwise the key is returned unmodified. -/
def canonicalHeaderKey (cs : List Char) : List Char :=
  if cs.all isTokenChar then canonicalChars true cs else cs

/-- The `contentLength` header-name constant.

Modelled from the spec: the revision of the constants file that
accompanies the header-framed stream transport is not among the source
files (only an older lowercase revision is); §4.3/§6 state that header
name matching is case-insensitive via the canonical form, so the
constant compared against `http.CanonicalHeaderKey` must itself be the
canonical `Content-Length`. -/
def contentLength : List Char := "Content-Length".toList

/-- The `contentType` header-name constant.

Modelled from the spec: same missing constants file; canonical form
`Content-Type` per §4.3/§6. -/
def contentType : List Char := "Content-Type".toList

/-- The accepted media types.

Modelled from the spec: the `mimetypes` slice is referenced by the
framed stream transport but its defining file is not among the source
files; §4.3 lists `application/json`, `application/json-rpc`,
`application/jsonrequest`. -/
def mimetypes : List String := ["application/json", "application/json-rpc", "application/jsonrequest"]

/-- `strings.TrimSpace` on a character list. -/
def trimChars (cs : List Char) : List Char :=
  ((cs.dropWhile Char.isWhitespace).reverse.dropWhile Char.isWhitespace).reverse

/-- `strings.IndexByte`: index of the first occurrence, `-1` when absent,
as an `Option Nat` (`none` for `-1`). -/
def indexByte (cs : List Char) (c : Char) : Option Nat :=
  cs.findIdx? (fun x => x == c)

/-- `strings.ToLower` (ASCII suffices for the header values compared). -/
def lowerChars (cs : List Char) : List Char := cs.map Char.toLower

/-- `strconv.ParseInt(v, 10, 64)`: optional sign, at least one digit, all
digits, and the value must fit `int64`. -/
def parseInt64 (cs : List Char) : Except Unit Int :=
  let (neg, digits) :=
    match cs with
    | '-' :: rest => (true, rest)
    | '+' :: rest => (false, rest)
    | _ => (false, cs)
  if digits.isEmpty then Except.error ()
  else if digits.all Char.isDigit then
    let v : Int := digits.foldl (fun acc c => acc * 10 + (c.toNat - 48 : Nat)) (0 : Int)
    let v := if neg then -v else v
    if int64Range v then Except.ok v else Except.error ()
  else Except.error ()

/-- `strings.Split(header, ";")` on a character list. -/
def splitOn (cs : List Char) (sep : Char) : List (List Char) :=
  match cs with
  | [] => [[]]
  | c :: rest =>
    let r := splitOn rest sep
    if c == sep then [] :: r
    else
      match r with
      | hd :: tl => (c :: hd) :: tl
      | [] => [[c]]

/-- `validContentType` in the constants/HTTP file.

Modelled from the spec: the revision accompanying the framed stream
transport (the one using the `mimetypes` list) is not among the source
files; per §4.3 the value must match one of the accepted media types
and any `charset` parameter must be `utf-8`.  The structure follows the
older single-mimetype revision that is in the sources: empty value
accepted; split on `;`; the first segment is the media type
(lowercased); each later `key=value` segment with key `charset` must
have value `utf-8` (lowercased). -/
def validContentType (header : List Char) : Except StreamError Unit :=
  if header.isEmpty then Except.ok ()
  else
    let pairs := splitOn header ';'
    match pairs with
    | [] => Except.ok ()
    | first :: rest =>
      if !(mimetypes.contains (String.mk (lowerChars first))) then
        Except.error StreamError.invalidContentType
      else if rest.any (fun pair =>
          match indexByte pair '=' with
          | some index =>
            0 < index &&
            lowerChars (trimChars (pair.take index)) == "charset".toList &&
            lowerChars (trimChars (pair.drop (index + 1))) != "utf-8".toList
          | none => false) then
        Except.error StreamError.invalidContentType
      else Except.ok ()

/-- The canonical header key of one raw line, when the line is a
non-terminating header line (mirrors one iteration of the header loop's
key extraction).  `none` for the blank terminator line. -/
def lineKey (line : String) : Option (List Char) :=
  let l := trimChars line.toList
  if l.isEmpty then none
  else
    match indexByte l ':' with
    | none => none
    | some index =>
      if index == 0 then none
      else some (canonicalHeaderKey (trimChars (l.take index)))

/-- The header loop of `streamTransport.Read`: consume lines until the
blank terminator, tracking the last parsed `Content-Length` (the `length`
variable, zero-initialised).  Running out of lines models the
`ReadString` error at end of stream. -/
def parseHeaders : List String → Int → Except StreamError Int
  | [], _ => Except.error StreamError.readLineError
  | line :: rest, length =>
    let l := trimChars line.toList
    if l.isEmpty then Except.ok length
    else
      match indexByte l ':' with
      | none => Except.error StreamError.invalidHeader
      | some index =>
        if index == 0 then Except.error StreamError.invalidHeader
        else
          let v := trimChars (l.drop (index + 1))
          let key := canonicalHeaderKey (trimChars (l.take index))
          if key == contentLength then
            match parseInt64 v with
            | Except.ok n => parseHeaders rest n
            | Except.error _ => Except.error StreamError.parseIntError
          else if key == contentType then
            match validContentType v with
            | Except.ok _ => parseHeaders rest length
            | Except.error e => Except.error e
          else parseHeaders rest length

/-- `streamTransport.Read` with `header = true`: parse the header block,
then dispatch on the accumulated length — negative fails with
`MissContentLength`, zero returns without reading a body (the target is
left untouched), positive reads and decodes the body (abstracted as
`readBody`).  The result is the decoded envelope, `none` for the empty
read. -/
def streamRead (lines : List String) (readBody : Int → Except StreamError Body) :
    Except StreamError (Option Body) :=
  match parseHeaders lines 0 with
  | Except.error e => Except.error e
  | Except.ok length =>
    if length < 0 then Except.error StreamError.missContentLength
    else if length == 0 then Except.ok none
    else
      match readBody length with
      | Except.error e => Except.error e
      | Except.ok b => Except.ok (some b)

/-! Concrete fixtures used by witnesses and counterexamples. -/

/-- A handler over `P = R = Int`: params decode from a JSON number, the
output encodes to a JSON number, and the user function is `f`. -/
def intHandler (f : Bool → Int → Int → Int × Option GoError) : Handler Int Int :=
  { zeroIn := 0, zeroOut := 0,
    decodeIn := fun j _ =>
      match j with
      | Json.num n => Except.ok n
      | _ => Except.error "json: cannot unmarshal into int",
    f := f,
    encodeOut := fun n => Except.ok (Json.num n) }

/-- A handler whose user function succeeds, adding one. -/
def okH : Handler Int Int := intHandler (fun _ p _ => (p + 1, none))

/-- A handler whose user function returns a plain error. -/
def errH : Handler Int Int := intHandler (fun _ _ r => (r, some (GoError.plain "boom")))

/-- `okH`, shape-erased. -/
def okAny : AnyHandler := ⟨Int, Int, okH⟩

/-- `errH`, shape-erased. -/
def errAny : AnyHandler := ⟨Int, Int, errH⟩

/-- A server with no registrations at all. -/
def emptyServer : Server :=
  { unique := "uid-1", servers := [], matchers := [], before := none, errHandler := none }

/-! Helper lemmas about the association-list model of `sync.Map`. -/

theorem loadAssoc_append_absent (l : List (String × AnyHandler)) (k : String) (v : AnyHandler)
    (h : loadAssoc l k = none) : loadAssoc (l ++ [(k, v)]) k = some v := by
  induction l with
  | nil => simp [loadAssoc]
  | cons p rest ih =>
    simp only [loadAssoc, List.find?] at h ⊢
    cases hpk : (p.fst == k) with
    | true => simp [hpk] at h
    | false =>
      simp only [hpk] at h ⊢
      exact ih h

theorem any_eq_find_isSome (l : List (String × AnyHandler)) (k : String) :
    (l.any (fun p => p.fst == k)) = (l.find? (fun p => p.fst == k)).isSome := by
  induction l with
  | nil => rfl
  | cons p rest ih =>
    simp only [List.any, List.find?]
    cases hpk : (p.fst == k) with
    | true => rfl
    | false => simpa using ih

theorem any_eq_load_isSome (l : List (String × AnyHandler)) (k : String) :
    (l.any (fun p => p.fst == k)) = (loadAssoc l k).isSome := by
  rw [any_eq_find_isSome]
  unfold loadAssoc
  cases l.find? (fun p => p.fst == k) <;> rfl

/-- C7: after a successful registration the method exists; registering the
same name again reports failure and leaves the server — in particular the
originally registered handler — unchanged. -/
theorem register_unique (s : Server) (m : String) (a a2 : AnyHandler)
    (h : (s.Register m a).2 = true) :
    ((s.Register m a).1.Exists m = true) ∧
    (((s.Register m a).1.Register m a2).2 = false) ∧
    (((s.Register m a).1.Register m a2).1 = (s.Register m a).1) ∧
    (loadAssoc (((s.Register m a).1.Register m a2).1).servers m = some a) := by
  by_cases he : s.Exists m
  · simp [Server.Register, he] at h
  · have hload : loadAssoc s.servers m = none := by
      unfold Server.Exists at he
      cases hl : loadAssoc s.servers m with
      | none => rfl
      | some _ => rw [hl] at he; simp at he
    have hstore : storeAssoc s.servers m a = s.servers ++ [(m, a)] := by
      unfold storeAssoc
      rw [any_eq_load_isSome, hload]
      simp
    have hreg1 : (s.Register m a).1 = { s with servers := s.servers ++ [(m, a)] } := by
      unfold Server.Register
      rw [if_neg he, hstore]
    rw [hreg1]
    have hload1 :
        loadAssoc ({ s with servers := s.servers ++ [(m, a)] } : Server).servers m = some a :=
      loadAssoc_append_absent s.servers m a hload
    have hex1 : ({ s with servers := s.servers ++ [(m, a)] } : Server).Exists m = true := by
      unfold Server.Exists
      rw [hload1]; rfl
    refine ⟨hex1, ?_, ?_, ?_⟩
    · unfold Server.Register; rw [if_pos hex1]
    · unfold Server.Register; rw [if_pos hex1]
    · unfold Server.Register; rw [if_pos hex1]; exact hload1

/-- Closed witness for `register_unique` at a concrete server and
handlers. -/
theorem register_unique_witness :
    ((emptyServer.Register "f1" okAny).2 = true) ∧
    (((emptyServer.Register "f1" okAny).1.Exists "f1" = true) ∧
     (((emptyServer.Register "f1" okAny).1.Register "f1" errAny).2 = false) ∧
     (((emptyServer.Register "f1" okAny).1.Register "f1" errAny).1 =
        (emptyServer.Register "f1" okAny).1) ∧
     (loadAssoc (((emptyServer.Register "f1" okAny).1.Register "f1" errAny).1).servers "f1" =
        some okAny)) :=
  ⟨rfl, register_unique emptyServer "f1" okAny errAny rfl⟩

/-- C5: encoding an ID and decoding the produced value yields an ID equal
to the original under `ID.Equal`; the integer value is preserved exactly
and the string value round-trips unchanged.  The hypothesis records that
a Go `int64` field always holds an in-range value. -/
theorem id_encode_decode_roundtrip (id : ID)
    (h : id.isNumber = true → int64Range id.number) :
    ∃ id2 : ID, ID.unmarshalJSON zeroID (ID.marshalJSON id) = some id2 ∧
      id2.Equal id = true ∧
      (id.isNumber = true → id2.number = id.number) ∧
      (id.isNumber = false → id2.alpha = id.alpha) := by
  rcases hn : id.isNumber with _ | _
  · refine ⟨{ zeroID with alpha := id.alpha, isNumber := false }, ?_, ?_, ?_, ?_⟩
    · simp [ID.marshalJSON, ID.unmarshalJSON, unmarshalInt64, unmarshalString, hn, zeroID]
    · simp [ID.Equal, hn]
    · intro hc; exact Bool.noConfusion hc
    · intro _; rfl
  · refine ⟨{ zeroID with number := id.number, isNumber := true }, ?_, ?_, ?_, ?_⟩
    · simp [ID.marshalJSON, ID.unmarshalJSON, unmarshalInt64, hn, h hn, zeroID]
    · simp [ID.Equal, hn]
    · intro _; rfl
    · intro hc; exact Bool.noConfusion hc

/-! Helper lemmas about matcher resolution. -/

theorem findMatcher_eq_find (l : List Matcher) (name : String) :
    findMatcher l name = (l.find? (fun m => m.pred name)).map Matcher.h := by
  induction l with
  | nil => rfl
  | cons m rest ih =>
    simp only [findMatcher, List.find?]
    cases hm : m.pred name with
    | true => rfl
    | false => simpa using ih

theorem findMatcher_none (l : List Matcher) (name : String)
    (h : ∀ m ∈ l, m.pred name = false) : findMatcher l name = none := by
  induction l with
  | nil => rfl
  | cons m rest ih =>
    simp only [findMatcher]
    rw [h m (List.mem_cons_self m rest)]
    exact ih (fun m' hm' => h m' (List.mem_cons_of_mem m hm'))

/-- C8: handler resolution consults the exact-name table first; only on a
miss are the matchers consulted, in insertion order, taking the first
whose predicate accepts; and when no matcher accepts either, the
response is a single `MethodNotFound` error envelope naming the
method. -/
theorem dispatch_resolution (s : Server) (req : Body) (hb : s.before = none) :
    (∀ a, loadAssoc s.servers req.method = some a → s.lookup req.method = some a) ∧
    (loadAssoc s.servers req.method = none →
      s.lookup req.method = (s.matchers.find? (fun m => m.pred req.method)).map Matcher.h) ∧
    (loadAssoc s.servers req.method = none →
      (∀ m ∈ s.matchers, m.pred req.method = false) →
      s.response req = [writeErrorBody req.id CodeMethodNotFound
        (GoError.plain ("未找到对应的服务 " ++ req.method)) none]) := by
  refine ⟨?_, ?_, ?_⟩
  · intro a ha
    unfold Server.lookup
    rw [ha]
  · intro hmiss
    unfold Server.lookup
    rw [hmiss, findMatcher_eq_find]
  · intro hmiss hpred
    have hlook : s.lookup req.method = none := by
      unfold Server.lookup
      rw [hmiss]
      exact findMatcher_none s.matchers req.method hpred
    unfold Server.response
    rw [hb, hlook]

/-- A server resolving nothing: one exact entry `f1` and one matcher for
the `ok/` prefix, with no before-hook. -/
def cS8 : Server :=
  { unique := "uid-1",
    servers := [("f1", okAny)],
    matchers := [{ pred := fun name => name.toList.take 3 == "ok/".toList, h := okAny }],
    before := none, errHandler := none }

/-- A request for an unregistered method, used against `cS8`. -/
def req8 : Body :=
  { version := "2.0", id := some ⟨7, "", true⟩, method := "ok_bad",
    params := none, result := none, error := none }

/-- Closed witness for `dispatch_resolution`: the concrete miss writes the
`MethodNotFound` envelope naming the method. -/
theorem dispatch_resolution_witness :
    cS8.response req8 = [writeErrorBody (some ⟨7, "", true⟩) CodeMethodNotFound
      (GoError.plain ("未找到对应的服务 " ++ "ok_bad")) none] :=
  (dispatch_resolution cS8 req8 rfl).2.2 rfl (by
    intro m hm
    simp only [cS8, List.mem_singleton] at hm
    rw [hm]
    decide)

/-- C6: a non-notification request whose handler function returns an
error is answered by an error envelope: a structured handler error
appears verbatim (code, message and data), any other error is wrapped
with `CodeInternalError` and the error's own message. -/
theorem handler_error_envelope {P R : Type} (h : Handler P R) (s : Server) (req : Body)
    (i : ID) (hid : req.id = some i) (hb : s.before = none)
    (hl : s.lookup req.method = some ⟨P, R, h⟩)
    (inVal : P) (hdec : h.decodeParams req = Except.ok inVal)
    (outVal : R) (gerr : GoError)
    (hf : h.f false inVal h.zeroOut = (outVal, some gerr)) :
    s.response req =
      [⟨Version, req.id, "", none, none, some (NewErrorWithError CodeInternalError gerr)⟩] ∧
    (∀ e, gerr = GoError.structured e → NewErrorWithError CodeInternalError gerr = e) ∧
    (∀ msg, gerr = GoError.plain msg →
      NewErrorWithError CodeInternalError gerr = ⟨CodeInternalError, msg, none⟩) := by
  have hnotify : req.id.isNone = false := by rw [hid]; rfl
  have hcall : h.call req = Except.error (NewErrorWithError CodeInternalError gerr) := by
    unfold Handler.call
    rw [hdec]
    simp only [hnotify, hf]
  refine ⟨?_, ?_, ?_⟩
  · unfold Server.response
    rw [hb, hl]
    simp only [AnyHandler.call, hcall]
    rfl
  · intro e he; rw [he]; rfl
  · intro msg hmsg; rw [hmsg]; rfl

/-- A server holding the plain-error handler under `f1`. -/
def cS6 : Server :=
  { unique := "uid-1", servers := [("f1", errAny)], matchers := [],
    before := none, errHandler := none }

/-- A non-notification request for `f1` with numeric params. -/
def req6 : Body :=
  { version := "2.0", id := some ⟨5, "", true⟩, method := "f1",
    params := some (Json.num 3), result := none, error := none }

/-- Closed witness for `handler_error_envelope` at the plain-error
handler: the plain error `boom` arrives wrapped under
`CodeInternalError`. -/
theorem handler_error_envelope_witness :
    cS6.response req6 =
      [⟨Version, req6.id, "", none, none,
        some (NewErrorWithError CodeInternalError (GoError.plain "boom"))⟩] ∧
    (∀ e, GoError.plain "boom" = GoError.structured e →
      NewErrorWithError CodeInternalError (GoError.plain "boom") = e) ∧
    (∀ msg, GoError.plain "boom" = GoError.plain msg →
      NewErrorWithError CodeInternalError (GoError.plain "boom") =
        ⟨CodeInternalError, msg, none⟩) :=
  handler_error_envelope errH cS6 req6 ⟨5, "", true⟩ rfl rfl rfl 3 rfl 0
    (GoError.plain "boom") rfl

/-- A notification request for `f1` with well-formed numeric params. -/
def req1 : Body :=
  { version := "2.0", id := none, method := "f1",
    params := some (Json.num 3), result := none, error := none }

/-- C1 counterexample: a notification (no id) whose handler returns an
error does cause an envelope to be written back, refuting the claim
that no response envelope is ever written for notifications. -/
theorem notification_error_writes_envelope :
    cS6.response req1 =
      [writeErrorBody none CodeParseError
        (GoError.structured ⟨CodeInternalError, "boom", none⟩) none] ∧
    cS6.response req1 ≠ [] := by
  refine ⟨rfl, ?_⟩
  intro hempty
  exact absurd (congrArg List.length hempty) (by decide)

/-- C1 (amended): for a notification, a handler run that succeeds writes
nothing, and no success envelope can ever be produced; but when the
handler call fails (params decode failure or a handler error) an error
envelope — with the id absent — is written back. -/
theorem notification_response {P R : Type} (h : Handler P R) (s : Server) (req : Body)
    (hnot : req.id = none) (hb : s.before = none)
    (hl : s.lookup req.method = some ⟨P, R, h⟩) :
    (h.call req = Except.ok none → s.response req = []) ∧
    (∀ b, h.call req ≠ Except.ok (some b)) ∧
    (∀ e, h.call req = Except.error e →
      s.response req = [writeErrorBody none CodeParseError (GoError.structured e) none]) := by
  have hnotify : req.id.isNone = true := by rw [hnot]; rfl
  refine ⟨?_, ?_, ?_⟩
  · intro hcall
    unfold Server.response
    rw [hb, hl]
    simp only [AnyHandler.call, hcall]
  · intro b hcall
    unfold Handler.call at hcall
    rcases hdec : h.decodeParams req with e | inVal
    · rw [hdec] at hcall; exact Except.noConfusion hcall
    · rw [hdec] at hcall
      simp only [hnotify] at hcall
      rcases hf : h.f true inVal h.zeroOut with ⟨outVal, oerr⟩
      rw [hf] at hcall
      cases oerr with
      | some e => exact Except.noConfusion hcall
      | none => simp at hcall
  · intro e hcall
    unfold Server.response
    rw [hb, hl]
    simp only [AnyHandler.call, hcall]
    rw [hnot]

/-- A server holding the successful handler under `f1`. -/
def cS1 : Server :=
  { unique := "uid-1", servers := [("f1", okAny)], matchers := [],
    before := none, errHandler := none }

/-- Closed witness for `notification_response` at the successful handler:
the notification produces no writes. -/
theorem notification_response_witness :
    cS1.response req1 = [] :=
  (notification_response okH cS1 req1 rfl rfl rfl).1 rfl

/-- A server whose before-hook vetoes with a structured error of code
`CodeInvalidParams`. -/
def cS4 : Server :=
  { unique := "uid-1", servers := [("f1", okAny)], matchers := [],
    before := some (fun _ =>
      some (GoError.structured ⟨CodeInvalidParams, "invalid params", none⟩)),
    errHandler := none }

/-- A non-notification request for `f1`, used against `cS4`. -/
def req4 : Body :=
  { version := "2.0", id := some ⟨1, "", true⟩, method := "f1",
    params := none, result := none, error := none }

/-- C4 counterexample: a structured before-hook error with code
`CodeInvalidParams` is written back carrying its own code, not
`CodeMethodNotFound` as the claim states. -/
theorem before_hook_structured_keeps_code :
    ((cS4.response req4).head?.bind Body.error).map Error.code = some CodeInvalidParams ∧
    ((cS4.response req4).head?.bind Body.error).map Error.code ≠ some CodeMethodNotFound := by
  refine ⟨rfl, ?_⟩
  intro hcode
  have : CodeInvalidParams = CodeMethodNotFound := Option.some.inj (rfl.trans hcode)
  exact absurd this (by decide)

/-- C4 (amended): when the before-hook vetoes, the response is exactly one
error envelope: a plain hook error is wrapped under `CodeMethodNotFound`,
while a structured hook error is preserved verbatim — payload and its own
code; the registered handlers and matchers are never consulted. -/
theorem before_hook_veto (s : Server) (req : Body) (bf : String → Option GoError)
    (hbf : s.before = some bf) (gerr : GoError) (hveto : bf req.method = some gerr) :
    s.response req = [writeErrorBody req.id CodeMethodNotFound gerr none] ∧
    (∀ msg, gerr = GoError.plain msg →
      (writeErrorBody req.id CodeMethodNotFound gerr none).error =
        some ⟨CodeMethodNotFound, msg, none⟩) ∧
    (∀ e, gerr = GoError.structured e →
      (writeErrorBody req.id CodeMethodNotFound gerr none).error = some e) ∧
    (∀ servers2 matchers2,
      Server.response { s with servers := servers2, matchers := matchers2 } req =
        s.response req) := by
  have hresp : s.response req = [writeErrorBody req.id CodeMethodNotFound gerr none] := by
    unfold Server.response
    rw [hbf]
    simp only [hveto]
  refine ⟨hresp, ?_, ?_, ?_⟩
  · intro msg hmsg; rw [hmsg]; rfl
  · intro e he; rw [he]; rfl
  · intro servers2 matchers2
    rw [hresp]
    unfold Server.response
    rw [hbf]
    simp only [hveto]

/-- Closed witness for `before_hook_veto` at `cS4`. -/
theorem before_hook_veto_witness :
    cS4.response req4 = [writeErrorBody req4.id CodeMethodNotFound
      (GoError.structured ⟨CodeInvalidParams, "invalid params", none⟩) none] :=
  (before_hook_veto cS4 req4
    (fun _ => some (GoError.structured ⟨CodeInvalidParams, "invalid params", none⟩))
    rfl (GoError.structured ⟨CodeInvalidParams, "invalid params", none⟩) rfl).1

/-- The envelope `Server.read` writes for a failed transport decode. -/
def parseFailureEnvelope (msg : String) : Body :=
  writeErrorBody none CodeParseError (GoError.plain msg) none

/-- C2 counterexample: the envelope answering a malformed transport read
has no `id` key on the wire at all — the nil ID is omitted by
`omitempty`, not serialized as JSON `null`. -/
theorem parse_error_id_not_null :
    (Server.read (TransportRead.errPlain "unexpected end of JSON input")).2 =
      [parseFailureEnvelope "unexpected end of JSON input"] ∧
    (parseFailureEnvelope "unexpected end of JSON input").marshalJSON.objGet "id" = none ∧
    (parseFailureEnvelope "unexpected end of JSON input").marshalJSON.objGet "id" ≠
      some Json.null := by
  refine ⟨rfl, rfl, ?_⟩
  intro hnull
  exact Option.noConfusion (rfl.trans hnull)

/-- C2 (amended): every failed transport decode is answered by exactly one
envelope whose error code is `-32700` and whose wire object carries only
the `jsonrpc` and `error` keys — the `id` field is omitted. -/
theorem parse_error_envelope (msg : String) :
    (Server.read (TransportRead.errPlain msg)).1 = none ∧
    (Server.read (TransportRead.errPlain msg)).2 = [parseFailureEnvelope msg] ∧
    (parseFailureEnvelope msg).error = some ⟨CodeParseError, msg, none⟩ ∧
    (parseFailureEnvelope msg).marshalJSON.objKeys = ["jsonrpc", "error"] :=
  ⟨rfl, rfl, rfl, rfl⟩

/-- C9 counterexample: in a successful `Send`, the transport write of the
request envelope happens first and the callback registration second, so
the callback is not stored before the envelope is written. -/
theorem send_stores_after_write :
    (Conn.sendEvents emptyServer "m" none false false).1 =
      [SendEvent.write (emptyServer.requestBody false "m" none),
       SendEvent.store "uid-1"] ∧
    ¬ storeBeforeWrite (Conn.sendEvents emptyServer "m" none false false).1 := by
  refine ⟨rfl, ?_⟩
  rintro ⟨i, j, hij, ⟨k, hk⟩, ⟨b, hb⟩⟩
  match j, hb with
  | 0, hb => exact absurd hij (Nat.not_lt_zero i)
  | 1, hb =>
    have : SendEvent.store "uid-1" = SendEvent.write b := Option.some.inj (rfl.trans hb)
    exact SendEvent.noConfusion this
  | n + 2, hb => exact Option.noConfusion (rfl.trans hb)

/-- C9 (amended): every `Send` that returns success produces exactly the
trace "write the request envelope, then store the callback under the
freshly minted ID's string form"; the registration completes before
`Send` returns, but after the transport write. -/
theorem send_event_order (s : Server) (method : String) (params : Option Json)
    (mf wf : Bool) (h : (Conn.sendEvents s method params mf wf).2 = true) :
    (Conn.sendEvents s method params mf wf).1 =
      [SendEvent.write (s.requestBody false method params),
       SendEvent.store (s.mintID).string] ∧
    (s.requestBody false method params).id = some s.mintID := by
  unfold Conn.sendEvents at h ⊢
  by_cases hmf : (params.isSome && mf) = true
  · rw [if_pos hmf] at h; exact Bool.noConfusion h
  · rw [if_neg hmf] at h ⊢
    by_cases hwf : wf = true
    · rw [if_pos hwf] at h; exact Bool.noConfusion h
    · rw [if_neg hwf]
      exact ⟨rfl, rfl⟩

/-- Closed witness for `send_event_order` at a concrete server. -/
theorem send_event_order_witness :
    (Conn.sendEvents emptyServer "f1" (some (Json.num 3)) false false).1 =
      [SendEvent.write (emptyServer.requestBody false "f1" (some (Json.num 3))),
       SendEvent.store (emptyServer.mintID).string] ∧
    (emptyServer.requestBody false "f1" (some (Json.num 3))).id = some emptyServer.mintID :=
  send_event_order emptyServer "f1" (some (Json.num 3)) false false rfl

/-- The wire object `{"jsonrpc":"2.0"}` decoded into an envelope: version
set, everything else absent. -/
def bodyOnlyVersion : Body :=
  { version := "2.0", id := none, method := "", params := none,
    result := none, error := none }

/-- C10: the envelope `{"jsonrpc":"2.0"}` passes the server's read stage
(it is not the empty request), is classified as a response, carries no
error object — and the dispatch then reaches `body.ID.String()` with a
nil ID, the nil-pointer dereference: dispatch is not total. -/
theorem serve_nil_id_panics :
    Server.read (TransportRead.ok bodyOnlyVersion) = (some bodyOnlyVersion, []) ∧
    bodyOnlyVersion.isRequest = false ∧
    bodyOnlyVersion.error = none ∧
    Conn.serve emptyServer [] bodyOnlyVersion = ServeOutcome.panicNilID :=
  ⟨rfl, rfl, rfl, rfl⟩

/-- When no line of the header block carries the `Content-Length` key, a
successful header parse leaves the length at its initial value (the
`length` variable is never assigned). -/
theorem parseHeaders_no_cl : ∀ (lines : List String) (acc len : Int),
    parseHeaders lines acc = Except.ok len →
    (∀ l ∈ lines, lineKey l ≠ some contentLength) → len = acc := by
  intro lines
  induction lines with
  | nil => intro acc len hp _; exact Except.noConfusion hp
  | cons line rest ih =>
    intro acc len hp hnone
    have hline : lineKey line ≠ some contentLength := hnone line (List.mem_cons_self _ _)
    have hrest : ∀ l ∈ rest, lineKey l ≠ some contentLength :=
      fun l hl => hnone l (List.mem_cons_of_mem _ hl)
    simp only [parseHeaders] at hp
    by_cases hempty : (trimChars line.toList).isEmpty = true
    · rw [if_pos hempty] at hp
      exact (Except.ok.inj hp).symm
    · rw [if_neg hempty] at hp
      cases hidx : indexByte (trimChars line.toList) ':' with
      | none => simp only [hidx] at hp; exact Except.noConfusion hp
      | some index =>
        simp only [hidx] at hp
        by_cases hz : (index == 0) = true
        · rw [if_pos hz] at hp; exact Except.noConfusion hp
        · rw [if_neg hz] at hp
          have hkey : ¬((canonicalHeaderKey (trimChars ((trimChars line.toList).take index)) ==
              contentLength) = true) := by
            intro hk
            apply hline
            simp only [lineKey]
            rw [if_neg hempty]
            simp only [hidx]
            rw [if_neg hz]
            rw [eq_of_beq hk]
          rw [if_neg hkey] at hp
          by_cases hct : (canonicalHeaderKey (trimChars ((trimChars line.toList).take index)) ==
              contentType) = true
          · rw [if_pos hct] at hp
            cases hvct : validContentType (trimChars ((trimChars line.toList).drop (index + 1))) with
            | ok u => rw [hvct] at hp; exact ih acc len hp hrest
            | error e => rw [hvct] at hp; exact Except.noConfusion hp
          · rw [if_neg hct] at hp
            exact ih acc len hp hrest

/-- C3 counterexample: a header block with a header line but no
`Content-Length` header makes `Read` return successfully with an empty
read (no envelope), instead of failing with `MissingContentLength`. -/
theorem missing_content_length_no_error :
    streamRead ["X-Foo: bar\r\n", "\r\n"] (fun _ => Except.error StreamError.bodyError) =
      Except.ok none ∧
    streamRead ["X-Foo: bar\r\n", "\r\n"] (fun _ => Except.error StreamError.bodyError) ≠
      Except.error StreamError.missContentLength := by
  refine ⟨rfl, ?_⟩
  intro hc
  exact Except.noConfusion (rfl.trans hc)

/-- C3 (amended): a well-formed header block with no `Content-Length`
header behaves exactly like `Content-Length: 0`: the framed read returns
success without decoding an envelope, and in particular it does not fail
with `MissingContentLength` (that error arises only from an explicitly
negative length). -/
theorem no_content_length_empty_read (lines : List String)
    (rb : Int → Except StreamError Body) (len : Int)
    (hp : parseHeaders lines 0 = Except.ok len)
    (hnone : ∀ l ∈ lines, lineKey l ≠ some contentLength) :
    streamRead lines rb = Except.ok none ∧
    streamRead lines rb ≠ Except.error StreamError.missContentLength := by
  have h0 : len = 0 := parseHeaders_no_cl lines 0 len hp hnone
  subst h0
  have hread : streamRead lines rb = Except.ok none := by
    unfold streamRead
    rw [hp]
    rfl
  refine ⟨hread, ?_⟩
  rw [hread]
  intro hc
  exact Except.noConfusion hc

/-- Closed witness for `no_content_length_empty_read` at the empty header
block. -/
theorem no_content_length_empty_read_witness :
    streamRead ["\r\n"] (fun _ => Except.error StreamError.bodyError) = Except.ok none ∧
    streamRead ["\r\n"] (fun _ => Except.error StreamError.bodyError) ≠
      Except.error StreamError.missContentLength :=
  no_content_length_empty_read ["\r\n"] (fun _ => Except.error StreamError.bodyError) 0 rfl
    (by
      intro l hl
      rw [List.mem_singleton] at hl
      subst hl
      intro hk
      exact Option.noConfusion hk)

/-- Closed witness for `id_encode_decode_roundtrip` at the number 42. -/
theorem id_encode_decode_roundtrip_witness :
    ∃ id2 : ID, ID.unmarshalJSON zeroID (ID.marshalJSON ⟨42, "", true⟩) = some id2 ∧
      id2.Equal ⟨42, "", true⟩ = true ∧
      ((⟨42, "", true⟩ : ID).isNumber = true → id2.number = (⟨42, "", true⟩ : ID).number) ∧
      ((⟨42, "", true⟩ : ID).isNumber = false → id2.alpha = (⟨42, "", true⟩ : ID).alpha) :=
  id_encode_decode_roundtrip ⟨42, "", true⟩ (fun _ => by decide)
